import Mathlib

/-!
Verification of the bump-orchestration tool (baldrdashlift).

The Rust sources consist of `src/main.rs` (orchestrator, manifest patching,
build/test runners), `src/git.rs` and `src/hg.rs` (the two version-control
backends).  Strings are modelled as `List Char`; file contents are modelled
as the character list the Rust code reads with `read_to_string`.  External
effects (process invocations, file writes, network fetches) are modelled by
an environment record supplying the outcome of each external call, and an
event trace recording which externally visible actions the pipeline
performed, in order.
-/

/-- Whitespace trimming as used by Rust `str::trim` (the Rust version trims
Unicode whitespace; `Char.isWhitespace` covers the ASCII whitespace that the
backends emit). -/
def trim (s : List Char) : List Char :=
  ((s.dropWhile Char.isWhitespace).reverse.dropWhile Char.isWhitespace).reverse

/-- Substring test, embedding Rust `str::contains` with a string pattern:
the needle occurs contiguously somewhere in the haystack. -/
def containsSub (needle : List Char) : List Char → Bool
  | [] => needle.isPrefixOf []
  | c :: rest => needle.isPrefixOf (c :: rest) || containsSub needle rest

/-- Captured result of a finished child process, as produced by Rust
`Command::output()`: exit-status success flag plus both captured streams. -/
structure ProcOutput where
  success : Bool
  stdout : List Char
  stderr : List Char

/-- Sentinel substring recognised by the git backend (`git.rs` line 31). -/
def gitSentinel : List Char := "nothing to commit".data

/-- Sentinel string recognised by the hg backend (`hg.rs` line 31). -/
def hgSentinel : List Char := "nothing changed".data

/-- Decision logic of `Git::commit` (`git.rs` lines 20-42) given the captured
output of the `git commit -am <msg>` child process. -/
def gitCommitResult (o : ProcOutput) : Except (List Char) Unit :=
  if o.success then .ok ()
  else if containsSub gitSentinel (trim o.stdout) then .ok ()
  else .error ("git commit returned an error: ".data ++ o.stdout ++ " ".data ++ o.stderr)

/-- Decision logic of `HG::commit` (`hg.rs` lines 20-42) given the captured
output of the `hg commit -m <msg>` child process. -/
def hgCommitResult (o : ProcOutput) : Except (List Char) Unit :=
  if o.success then .ok ()
  else if trim o.stdout = hgSentinel then .ok ()
  else .error ("hg commit returned an error: ".data ++ o.stdout ++ " ".data ++ o.stderr)

/-- The two version-control backends (`git.rs`, `hg.rs`). -/
inductive Backend where
  | hg
  | git
deriving DecidableEq

/-- Abstract filesystem: which paths are existing directories
(`PathBuf::is_dir`). -/
structure FS where
  isDirAt : List Char → Bool

/-- `HG::is_repo` (`hg.rs` lines 14-18): the `.hg` marker directory exists
directly under the path. -/
def hgIsRepo (fs : FS) (path : List Char) : Bool :=
  fs.isDirAt (path ++ "/.hg".data)

/-- `Git::is_repo` (`git.rs` lines 14-18): the `.git` marker directory exists
directly under the path. -/
def gitIsRepo (fs : FS) (path : List Char) : Bool :=
  fs.isDirAt (path ++ "/.git".data)

/-- `get_vcs_for_repo` (`main.rs` lines 21-31): probe hg first, then git,
else fail. -/
def get_vcs_for_repo (fs : FS) (path : List Char) : Except (List Char) Backend :=
  if hgIsRepo fs path then .ok .hg
  else if gitIsRepo fs path then .ok .git
  else .error ("Not a git or Mercurial repository: ".data ++ path)

/-- Split a character list at every newline, embedding Rust
`str::split("\n")` (`main.rs` lines 122 and 169): the result is always
nonempty, and an empty input yields one empty piece. -/
def splitNL : List Char → List (List Char)
  | [] => [[]]
  | c :: cs =>
    if c = '\n' then [] :: splitNL cs
    else
      match splitNL cs with
      | [] => [[c]]
      | l :: ls => (c :: l) :: ls

/-- Join line pieces with single newlines, embedding Rust
`Vec::join("\n")` (`main.rs` lines 150 and 191). -/
def joinNL : List (List Char) → List Char
  | [] => []
  | [l] => l
  | l :: l' :: ls => l ++ '\n' :: joinNL (l' :: ls)

/-- The resolved choice driving the nested-manifest rewrite (`main.rs`
lines 102-105): a published version number or a local checkout path. -/
inductive VersionSpec where
  | Fixed (version : List Char)
  | Path (path : List Char)
deriving DecidableEq

/-- Payload string carried by a `VersionSpec`. -/
def VersionSpec.payload : VersionSpec → List Char
  | .Fixed s => s
  | .Path s => s

/-- Trigger key of the primary declaration rule (`main.rs` line 126). -/
def codegenKey : List Char := "cranelift-codegen =".data

/-- Trigger key of the companion declaration rule (`main.rs` line 137). -/
def wasmKey : List Char := "cranelift-wasm".data

/-- Replacement text substituted for the primary declaration
(`main.rs` lines 127-135): the braced inline table with the trailing
`default-features = false` attribute. -/
def codegenLine (v : VersionSpec) : List Char :=
  "cranelift-codegen = \x7b ".data ++
    (match v with
     | .Fixed n => "version = \"".data ++ n ++ "\"".data
     | .Path p => "path = \"".data ++ p ++ "codegen\"".data) ++
    ", default-features = false \x7d".data

/-- Replacement text substituted for the companion declaration
(`main.rs` lines 137-144): the braced inline table with no trailing
attribute. -/
def wasmLine (v : VersionSpec) : List Char :=
  "cranelift-wasm = \x7b ".data ++
    (match v with
     | .Fixed n => "version = \"".data ++ n ++ "\"".data
     | .Path p => "path = \"".data ++ p ++ "wasm\"".data) ++
    " \x7d".data

/-- Per-line map of the nested-manifest rewrite (`main.rs` lines 125-148). -/
def mapCraneliftLine (v : VersionSpec) (line : List Char) : List Char :=
  if codegenKey.isPrefixOf line then codegenLine v
  else if wasmKey.isPrefixOf line then wasmLine v
  else line

/-- `replace_cranelift_version` (`main.rs` lines 108-157), restricted to its
pure content transformation: split on newlines, map each line, join back. -/
def replace_cranelift_version (v : VersionSpec) (content : List Char) : List Char :=
  joinNL ((splitNL content).map (mapCraneliftLine v))

/-- Header line trigger of the top-level rewrite (`main.rs` line 185). -/
def patchHeaderKey : List Char := "[patch.crates-io.cranelift-".data

/-- The pin line written by the top-level rewrite (`main.rs` line 181). -/
def revLine (sha : List Char) : List Char :=
  "rev = \"".data ++ sha ++ "\"".data

/-- One step of the top-level rewrite state machine (`main.rs` lines
175-188): decrement a pending countdown, replace the line when the countdown
reaches zero, and arm a fresh countdown of 2 on a header line. -/
def shaLineStep (sha : List Char) (st : Option Nat) (line : List Char) :
    Option Nat × List Char :=
  let st1 : Option Nat :=
    match st with
    | some x => if x > 0 then some (x - 1) else none
    | none => none
  let ret := if st1 = some 0 then revLine sha else line
  let st2 := if patchHeaderKey.isPrefixOf line then some 2 else st1
  (st2, ret)

/-- The top-level rewrite state machine run over a list of lines
(`main.rs` lines 173-190). -/
def shaMapLines (sha : List Char) : Option Nat → List (List Char) → List (List Char)
  | _, [] => []
  | st, l :: ls =>
    let p := shaLineStep sha st l
    p.2 :: shaMapLines sha p.1 ls

/-- `replace_commit_sha` (`main.rs` lines 160-198), restricted to its pure
content transformation: split on newlines, run the countdown state machine
starting idle, join back. -/
def replace_commit_sha (sha content : List Char) : List Char :=
  joinNL (shaMapLines sha none (splitNL content))

/-- Externally visible actions a workflow performs, in order.  A commit or
vendor event records that the child process was invoked, whether or not it
succeeded; a write event records a manifest file being rewritten. -/
inductive Event where
  | wroteNested (v : VersionSpec)
  | wroteTop (sha : List Char)
  | committed (msg : List Char)
  | ranVendor (allowLarge : Bool)
  | ranMake (jobs : Nat)
deriving DecidableEq

/-- True on the two manifest-write events. -/
def isWriteEvent : Event → Bool
  | .wroteNested _ => true
  | .wroteTop _ => true
  | _ => false

/-- True only on the top-level-manifest write event. -/
def isTopWrite : Event → Bool
  | .wroteTop _ => true
  | _ => false

/-- True when a pipeline result is an error. -/
def errored : Except (List Char) Unit → Bool
  | .error _ => true
  | .ok _ => false

/-- Error message raised on a dirty working tree (`main.rs` line 237). -/
def diffMsg : List Char :=
  "Diff isn\x27t empty! aborting, please make sure the repository is clean before running this script".data

/-- `check_gecko_repo` (`main.rs` lines 229-241): change into the
repository, detect the backend, and require an empty diff.  The outcomes of
`set_current_dir` and `has_diff` are supplied by the caller's environment. -/
def check_gecko_repo (cwd : Except (List Char) Unit) (fs : FS)
    (hasDiff : Except (List Char) Bool) (repoPath : List Char) :
    Except (List Char) Backend :=
  match cwd with
  | .error e => .error e
  | .ok _ =>
    match get_vcs_for_repo fs repoPath with
    | .error e => .error e
    | .ok repo =>
      match hasDiff with
      | .error e => .error e
      | .ok true => .error diffMsg
      | .ok false => .ok repo

/-- Parsing of the optional bump flag (`main.rs` lines 273-280). -/
def parseBumpArg : Option (List Char) → Except (List Char) Bool
  | none => .ok false
  | some a =>
    if a = "--allow-large".data ∨ a = "-a".data then .ok true
    else .error ("unknown bump option: ".data ++ a)

/-- Environment for one `bump` invocation: the canonicalized repository
path, and the outcome of every external call the pipeline may make, in
program order (`main.rs` lines 269-305). -/
structure BumpEnv where
  repoPath : List Char
  cwd : Except (List Char) Unit
  fs : FS
  hasDiff : Except (List Char) Bool
  extraArg : Option (List Char)
  versionFetch : Except (List Char) (List Char)
  shaFetch : Except (List Char) (List Char)
  commitA : Except (List Char) Unit
  commitB : Except (List Char) Unit
  vendorOk : Bool

/-- `run_bump` (`main.rs` lines 269-305): check the repository is clean,
parse the optional flag, fetch the latest version, rewrite the nested
manifest, fetch the latest upstream commit, rewrite the top-level manifest,
commit, vendor, commit again.  Returns the event trace plus the result. -/
def run_bump (env : BumpEnv) : List Event × Except (List Char) Unit :=
  match check_gecko_repo env.cwd env.fs env.hasDiff env.repoPath with
  | .error e => ([], .error e)
  | .ok _repo =>
    match parseBumpArg env.extraArg with
    | .error e => ([], .error e)
    | .ok largeImports =>
      match env.versionFetch with
      | .error e => ([], .error e)
      | .ok version =>
        let evs1 := [Event.wroteNested (VersionSpec.Fixed version)]
        match env.shaFetch with
        | .error e => (evs1, .error e)
        | .ok lastCommit =>
          let evs2 := evs1 ++ [Event.wroteTop lastCommit]
          let msg1 := "Bug XXX - Bump Cranelift to ".data ++ lastCommit ++ "; r?".data
          let evs3 := evs2 ++ [Event.committed msg1]
          match env.commitA with
          | .error e => (evs3, .error e)
          | .ok _ =>
            let evs4 := evs3 ++ [Event.ranVendor largeImports]
            if env.vendorOk then
              let evs5 := evs4 ++
                [Event.committed "Bug XXX - Output of mach vendor rust; r?".data]
              match env.commitB with
              | .error e => (evs5, .error e)
              | .ok _ => (evs5, .ok ())
            else (evs4, .error "Error when running mach vendor rust".data)

/-- Environment for one `local` invocation (`main.rs` lines 345-378). -/
structure LocalEnv where
  repoPath : List Char
  wasmtimeArg : Option (List Char)
  wasmtimeCanon : List Char
  cwd : Except (List Char) Unit
  fs : FS
  hasDiff : Except (List Char) Bool
  commitA : Except (List Char) Unit
  commitB : Except (List Char) Unit
  vendorOk : Bool

/-- `run_local` (`main.rs` lines 345-378): require the second argument,
check the repository is clean, rewrite the nested manifest with a `Path`
spec pointing into the local checkout, commit, vendor (never allowing large
imports), commit again.  Returns the event trace plus the result. -/
def run_local (env : LocalEnv) : List Event × Except (List Char) Unit :=
  match env.wasmtimeArg with
  | none => ([], .error "usage of `local`: local GECKO_REPO_PATH WASMTIME_REPO_PATH".data)
  | some _ =>
    let craneliftPath := env.wasmtimeCanon ++ "cranelift/".data
    match check_gecko_repo env.cwd env.fs env.hasDiff env.repoPath with
    | .error e => ([], .error e)
    | .ok _repo =>
      let evs1 := [Event.wroteNested (VersionSpec.Path craneliftPath)]
      let evs2 := evs1 ++ [Event.committed "No bug - do not check in - use local Cranelift".data]
      match env.commitA with
      | .error e => (evs2, .error e)
      | .ok _ =>
        let evs3 := evs2 ++ [Event.ranVendor false]
        if env.vendorOk then
          let evs4 := evs3 ++
            [Event.committed "No bug - do not check in - result of mach vendor rust".data]
          match env.commitB with
          | .error e => (evs4, .error e)
          | .ok _ => (evs4, .ok ())
        else (evs3, .error "Error when running mach vendor rust".data)

/-- Embedding of Rust `str::parse::<u32>`: an optional leading plus sign,
then one or more decimal digits, with the value bounded by `2 ^ 32`. -/
def parseU32 (s : List Char) : Option Nat :=
  let digits := match s with
    | '+' :: rest => rest
    | _ => s
  if digits = [] then none
  else if digits.all Char.isDigit then
    let n := digits.foldl (fun acc c => acc * 10 + (c.toNat - 48)) 0
    if n < 2 ^ 32 then some n else none
  else none

/-- Environment for one `build` invocation: the captured standard output of
`nproc` when the command could be run (`none` when it could not be started),
and whether `make` succeeds. -/
structure BuildEnv where
  nprocOut : Option (List Char)
  makeOk : Bool

/-- `run_build` (`main.rs` lines 307-343): determine the parallelism from
`nproc` (8 when the command cannot be started; whitespace is stripped from
its output before parsing, and a parse failure propagates as an error), then
run `make -sjN`. -/
def run_build (env : BuildEnv) : List Event × Except (List Char) Unit :=
  let nprocR : Except (List Char) Nat :=
    match env.nprocOut with
    | none => .ok 8
    | some out =>
      match parseU32 (out.filter (fun c => !c.isWhitespace)) with
      | some n => .ok n
      | none => .error "invalid digit found in string".data
  match nprocR with
  | .error e => ([], .error e)
  | .ok n =>
    ([Event.ranMake n],
     if env.makeOk then .ok () else .error "Error when running make".data)

example : containsSub "noth".data "a nothing b".data = true := by decide
example : containsSub "xyz".data "a nothing b".data = false := by decide
example : trim "  ab c \n".data = "ab c".data := by decide
example : hgCommitResult ⟨false, " nothing changed \n".data, []⟩ = .ok () := by rfl

example : splitNL "a\nbc\n".data = ["a".data, "bc".data, []] := by decide
example : joinNL ["a".data, "bc".data, []] = "a\nbc\n".data := by decide

example :
    replace_cranelift_version (.Fixed "0.61.0".data)
      "cranelift-codegen = \x7b version = \"0.60.0\", default-features = false \x7d".data
    = "cranelift-codegen = \x7b version = \"0.61.0\", default-features = false \x7d".data := by
  decide

example :
    replace_commit_sha "1234567".data
      "[patch.crates-io.cranelift-codegen]\ngit = \"g\"\nrev = \"abcdef0\"".data
    = "[patch.crates-io.cranelift-codegen]\ngit = \"g\"\nrev = \"1234567\"".data := by
  decide

example : parseU32 "12".data = some 12 := by decide
example : parseU32 "+7".data = some 7 := by decide
example : parseU32 "abc".data = none := by decide
example : parseU32 [] = none := by decide

/-- The primary key is never a prefix of a line that extends the companion
key (the two keys disagree at their eleventh character). -/
theorem codegenKey_not_pre_of_wasm (t : List Char) :
    codegenKey.isPrefixOf (wasmKey ++ t) = false := rfl

/-- The primary key heads its own replacement line. -/
theorem codegenKey_pre_head (t : List Char) :
    codegenKey.isPrefixOf ("cranelift-codegen = \x7b ".data ++ t) = true := rfl

/-- The companion key heads its own replacement line. -/
theorem wasmKey_pre_head (t : List Char) :
    wasmKey.isPrefixOf ("cranelift-wasm = \x7b ".data ++ t) = true := rfl

/-- The primary key does not head the companion replacement line. -/
theorem codegenKey_not_pre_head (t : List Char) :
    codegenKey.isPrefixOf ("cranelift-wasm = \x7b ".data ++ t) = false := rfl

/-- The primary key is a prefix of the primary replacement line. -/
theorem codegenKey_pre_codegenLine (v : VersionSpec) :
    codegenKey.isPrefixOf (codegenLine v) = true := by
  cases v <;> exact codegenKey_pre_head _

/-- The companion key is a prefix of the companion replacement line. -/
theorem wasmKey_pre_wasmLine (v : VersionSpec) :
    wasmKey.isPrefixOf (wasmLine v) = true := by
  cases v <;> exact wasmKey_pre_head _

/-- The primary key is not a prefix of the companion replacement line. -/
theorem codegenKey_not_pre_wasmLine (v : VersionSpec) :
    codegenKey.isPrefixOf (wasmLine v) = false := by
  cases v <;> exact codegenKey_not_pre_head _

/-- The per-line nested rewrite is idempotent on each single line. -/
theorem mapCraneliftLine_idem (v : VersionSpec) (l : List Char) :
    mapCraneliftLine v (mapCraneliftLine v l) = mapCraneliftLine v l := by
  by_cases h1 : codegenKey.isPrefixOf l = true
  · simp [mapCraneliftLine, h1, codegenKey_pre_codegenLine]
  · by_cases h2 : wasmKey.isPrefixOf l = true
    · simp [mapCraneliftLine, h1, h2, wasmKey_pre_wasmLine, codegenKey_not_pre_wasmLine]
    · simp [mapCraneliftLine, h1, h2]

/-- Splitting always yields at least one piece. -/
theorem splitNL_exists_cons (s : List Char) : ∃ l ls, splitNL s = l :: ls := by
  induction s with
  | nil => exact ⟨[], [], rfl⟩
  | cons c cs ih =>
    obtain ⟨l, ls, h⟩ := ih
    by_cases hc : c = '\n'
    · exact ⟨[], splitNL cs, by simp [splitNL, hc]⟩
    · exact ⟨c :: l, ls, by simp [splitNL, hc, h]⟩

/-- Joining the pieces of a split restores the original content, byte for
byte — in particular a trailing newline survives the round trip. -/
theorem joinNL_splitNL (s : List Char) : joinNL (splitNL s) = s := by
  induction s with
  | nil => rfl
  | cons c cs ih =>
    obtain ⟨l, ls, h⟩ := splitNL_exists_cons cs
    by_cases hc : c = '\n'
    · subst hc
      rw [show splitNL ('\n' :: cs) = [] :: splitNL cs from by simp [splitNL]]
      rw [h]
      show '\n' :: joinNL (l :: ls) = '\n' :: cs
      rw [← h, ih]
    · rw [show splitNL (c :: cs) = (c :: l) :: ls from by simp [splitNL, hc, h]]
      cases ls with
      | nil =>
        have hl : l = cs := by rw [h] at ih; exact ih
        simp [joinNL, hl]
      | cons l2 ls2 =>
        rw [h] at ih
        calc joinNL ((c :: l) :: l2 :: ls2)
            = c :: joinNL (l :: l2 :: ls2) := rfl
          _ = c :: cs := by rw [ih]

/-- A newline-free piece splits into exactly itself. -/
theorem splitNL_no_nl {l : List Char} (h : '\n' ∉ l) : splitNL l = [l] := by
  induction l with
  | nil => rfl
  | cons c cs ih =>
    have hc : c ≠ '\n' := fun e => h (e ▸ List.mem_cons_self c cs)
    have hcs : '\n' ∉ cs := fun m => h (List.mem_cons_of_mem _ m)
    simp [splitNL, hc, ih hcs]

/-- Splitting past a newline-free piece peels it off whole. -/
theorem splitNL_append_nl {l : List Char} (rest : List Char) (h : '\n' ∉ l) :
    splitNL (l ++ '\n' :: rest) = l :: splitNL rest := by
  induction l with
  | nil => simp [splitNL]
  | cons c cs ih =>
    have hc : c ≠ '\n' := fun e => h (e ▸ List.mem_cons_self c cs)
    have hcs : '\n' ∉ cs := fun m => h (List.mem_cons_of_mem _ m)
    simp [splitNL, hc, ih hcs]

/-- Splitting a join of newline-free pieces recovers exactly the pieces. -/
theorem splitNL_joinNL : ∀ ls : List (List Char), ls ≠ [] →
    (∀ l ∈ ls, '\n' ∉ l) → splitNL (joinNL ls) = ls
  | [], h, _ => absurd rfl h
  | [l], _, hn => by simp [joinNL, splitNL_no_nl (hn l (by simp))]
  | l :: l2 :: ls, _, hn => by
    have h1 : '\n' ∉ l := hn l (by simp)
    rw [show joinNL (l :: l2 :: ls) = l ++ '\n' :: joinNL (l2 :: ls) from rfl]
    rw [splitNL_append_nl _ h1]
    rw [splitNL_joinNL (l2 :: ls) (by simp)
      (fun x hx => hn x (List.mem_cons_of_mem _ hx))]

/-- Every piece produced by splitting is newline-free. -/
theorem mem_splitNL_no_nl (s : List Char) : ∀ l ∈ splitNL s, '\n' ∉ l := by
  induction s with
  | nil =>
    intro l hl
    simp [splitNL] at hl
    subst hl; simp
  | cons c cs ih =>
    intro l hl
    by_cases hc : c = '\n'
    · rw [show splitNL (c :: cs) = [] :: splitNL cs from by simp [splitNL, hc]] at hl
      rcases List.mem_cons.mp hl with h | h
      · subst h; simp
      · exact ih l h
    · obtain ⟨m, ms, h⟩ := splitNL_exists_cons cs
      rw [show splitNL (c :: cs) = (c :: m) :: ms from by simp [splitNL, hc, h]] at hl
      rcases List.mem_cons.mp hl with h2 | h2
      · subst h2
        intro hmem
        rcases List.mem_cons.mp hmem with h3 | h3
        · exact hc h3.symm
        · exact ih m (by rw [h]; simp) h3
      · exact ih l (by rw [h]; exact List.mem_cons_of_mem _ h2)

/-- With no pending countdown (or an expired one) and no header line, the
top-level state machine copies every line unchanged. -/
theorem shaMapLines_inert (sha : List Char) :
    ∀ ls : List (List Char), (∀ l ∈ ls, patchHeaderKey.isPrefixOf l = false) →
      ∀ st : Option Nat, st = none ∨ st = some 0 →
        shaMapLines sha st ls = ls
  | [], _, _, _ => rfl
  | l :: ls, h, st, hst => by
    have hl : patchHeaderKey.isPrefixOf l = false := h l (by simp)
    have step : shaLineStep sha st l = (none, l) := by
      rcases hst with rfl | rfl <;> simp [shaLineStep, hl]
    show (shaLineStep sha st l).2 ::
        shaMapLines sha (shaLineStep sha st l).1 ls = l :: ls
    rw [step]
    exact congrArg (l :: ·)
      (shaMapLines_inert sha ls (fun x hx => h x (List.mem_cons_of_mem _ hx))
        none (Or.inl rfl))

/-- The top-level state machine passes over a header-free leading block
unchanged while staying idle. -/
theorem shaMapLines_skip (sha : List Char) :
    ∀ a ls : List (List Char), (∀ l ∈ a, patchHeaderKey.isPrefixOf l = false) →
      shaMapLines sha none (a ++ ls) = a ++ shaMapLines sha none ls
  | [], _, _ => rfl
  | l :: a, ls, h => by
    have hl : patchHeaderKey.isPrefixOf l = false := h l (by simp)
    have step : shaLineStep sha none l = (none, l) := by simp [shaLineStep, hl]
    show (shaLineStep sha none l).2 ::
        shaMapLines sha (shaLineStep sha none l).1 (a ++ ls) =
      l :: (a ++ shaMapLines sha none ls)
    rw [step]
    exact congrArg (l :: ·)
      (shaMapLines_skip sha a ls (fun x hx => h x (List.mem_cons_of_mem _ hx)))

/-- When an idle machine meets a header line followed by at least two
header-free lines, it replaces exactly the second following line with the
pin line and copies everything else. -/
theorem shaMapLines_fire (sha h b0 b1 : List Char) (rest : List (List Char))
    (hh : patchHeaderKey.isPrefixOf h = true)
    (h0 : patchHeaderKey.isPrefixOf b0 = false)
    (h1 : patchHeaderKey.isPrefixOf b1 = false)
    (hrest : ∀ l ∈ rest, patchHeaderKey.isPrefixOf l = false) :
    shaMapLines sha none (h :: b0 :: b1 :: rest) =
      h :: b0 :: revLine sha :: rest := by
  have s1 : shaLineStep sha none h = (some 2, h) := by simp [shaLineStep, hh]
  have s2 : shaLineStep sha (some 2) b0 = (some 1, b0) := by simp [shaLineStep, h0]
  have s3 : shaLineStep sha (some 1) b1 = (some 0, revLine sha) := by
    simp [shaLineStep, h1]
  simp only [shaMapLines, s1, s2, s3]
  rw [shaMapLines_inert sha rest hrest _ (Or.inr rfl)]

/-- Appending preserves freedom from a character. -/
theorem no_nl_append {a b : List Char} (ha : '\n' ∉ a) (hb : '\n' ∉ b) :
    '\n' ∉ a ++ b := by
  intro hm
  rcases List.mem_append.mp hm with h | h
  · exact ha h
  · exact hb h

/-- The per-line nested rewrite keeps lines newline-free whenever the
version payload is newline-free. -/
theorem mapCraneliftLine_no_nl (v : VersionSpec) (l : List Char)
    (hv : '\n' ∉ v.payload) (hl : '\n' ∉ l) : '\n' ∉ mapCraneliftLine v l := by
  by_cases h1 : codegenKey.isPrefixOf l = true
  · simp only [mapCraneliftLine, h1, if_true]
    cases v with
    | Fixed n =>
      show '\n' ∉ "cranelift-codegen = \x7b ".data ++
        (("version = \"".data ++ (n ++ "\"".data)) ++
          ", default-features = false \x7d".data)
      exact no_nl_append (by decide)
        (no_nl_append (no_nl_append (by decide) (no_nl_append hv (by decide)))
          (by decide))
    | Path p =>
      show '\n' ∉ "cranelift-codegen = \x7b ".data ++
        (("path = \"".data ++ (p ++ "codegen\"".data)) ++
          ", default-features = false \x7d".data)
      exact no_nl_append (by decide)
        (no_nl_append (no_nl_append (by decide) (no_nl_append hv (by decide)))
          (by decide))
  · by_cases h2 : wasmKey.isPrefixOf l = true
    · simp only [mapCraneliftLine, h1, h2, if_true, if_false, Bool.false_eq_true]
      cases v with
      | Fixed n =>
        show '\n' ∉ "cranelift-wasm = \x7b ".data ++
          (("version = \"".data ++ (n ++ "\"".data)) ++ " \x7d".data)
        exact no_nl_append (by decide)
          (no_nl_append (no_nl_append (by decide) (no_nl_append hv (by decide)))
            (by decide))
      | Path p =>
        show '\n' ∉ "cranelift-wasm = \x7b ".data ++
          (("path = \"".data ++ (p ++ "wasm\"".data)) ++ " \x7d".data)
        exact no_nl_append (by decide)
          (no_nl_append (no_nl_append (by decide) (no_nl_append hv (by decide)))
            (by decide))
    · simpa [mapCraneliftLine, h1, h2] using hl

/-- Whenever the dirty-tree check did not return a clean verdict — it
errored or reported a diff — the repository check fails. -/
theorem check_gecko_repo_err_of_not_clean (cwd : Except (List Char) Unit) (fs : FS)
    (hd : Except (List Char) Bool) (path : List Char) (hne : hd ≠ .ok false) :
    ∃ e, check_gecko_repo cwd fs hd path = .error e := by
  cases cwd with
  | error e => exact ⟨e, rfl⟩
  | ok u =>
    cases hvcs : get_vcs_for_repo fs path with
    | error e => exact ⟨e, by simp [check_gecko_repo, hvcs]⟩
    | ok b =>
      cases hd with
      | error e => exact ⟨e, by simp [check_gecko_repo, hvcs]⟩
      | ok flag =>
        cases flag with
        | true => exact ⟨diffMsg, by simp [check_gecko_repo, hvcs]⟩
        | false => exact absurd rfl hne

/-- A successful repository check certifies that the dirty-tree check
returned false. -/
theorem check_gecko_repo_ok_clean {cwd : Except (List Char) Unit} {fs : FS}
    {hd : Except (List Char) Bool} {path : List Char} {b : Backend}
    (h : check_gecko_repo cwd fs hd path = .ok b) : hd = .ok false := by
  by_cases hne : hd = .ok false
  · exact hne
  · obtain ⟨e, he⟩ := check_gecko_repo_err_of_not_clean cwd fs hd path hne
    rw [he] at h
    exact absurd h (by simp)

/-- Claim C7: repository detection probes the backends in a fixed order —
hg first, then git — returns the first backend whose marker directory
exists directly under the path, deterministically prefers hg when both
marker directories exist, and fails with the not-a-recognized-repository
error when neither exists. -/
theorem detect_precedence (fs : FS) (path : List Char) :
    (hgIsRepo fs path = true → get_vcs_for_repo fs path = .ok .hg) ∧
    (hgIsRepo fs path = false → gitIsRepo fs path = true →
      get_vcs_for_repo fs path = .ok .git) ∧
    (hgIsRepo fs path = true → gitIsRepo fs path = true →
      get_vcs_for_repo fs path = .ok .hg) ∧
    (hgIsRepo fs path = false → gitIsRepo fs path = false →
      get_vcs_for_repo fs path =
        .error ("Not a git or Mercurial repository: ".data ++ path)) := by
  refine ⟨?_, ?_, ?_, ?_⟩
  · intro h1
    simp [get_vcs_for_repo, h1]
  · intro h1 h2
    simp [get_vcs_for_repo, h1, h2]
  · intro h1 _
    simp [get_vcs_for_repo, h1]
  · intro h1 h2
    simp [get_vcs_for_repo, h1, h2]

/-- Witness for claim C7: a directory holding both marker directories is
detected as a Mercurial repository. -/
theorem detect_precedence_witness :
    get_vcs_for_repo ⟨fun _ => true⟩ "/repo".data = .ok .hg :=
  (detect_precedence ⟨fun _ => true⟩ "/repo".data).1 rfl

/-- Claim C4 counterexample: for the hg backend the sentinel criterion is
exact equality of the trimmed stdout, not substring containment — an hg
commit whose stdout strictly contains the sentinel inside other text still
errors, refuting the claimed substring criterion. -/
theorem hg_sentinel_substring_cex :
    containsSub hgSentinel (trim "xx nothing changed yy".data) = true ∧
    errored (hgCommitResult ⟨false, "xx nothing changed yy".data, "e".data⟩) = true := by
  constructor
  · decide
  · rfl

/-- Claim C4 (amended): for both backends commit succeeds when the process
exits zero; on a non-zero exit, git succeeds exactly when the trimmed stdout
contains the git sentinel as a substring, while hg succeeds exactly when the
trimmed stdout equals the hg sentinel; any other non-zero exit yields an
error carrying both captured streams, so a second no-op commit whose output
shows the backend sentinel in the recognized form succeeds. -/
theorem commit_success_characterization (o : ProcOutput) :
    (gitCommitResult o = .ok () ↔
      (o.success = true ∨ containsSub gitSentinel (trim o.stdout) = true)) ∧
    (hgCommitResult o = .ok () ↔
      (o.success = true ∨ trim o.stdout = hgSentinel)) ∧
    (o.success = false → containsSub gitSentinel (trim o.stdout) = false →
      gitCommitResult o = .error
        ("git commit returned an error: ".data ++ o.stdout ++ " ".data ++ o.stderr)) ∧
    (o.success = false → trim o.stdout ≠ hgSentinel →
      hgCommitResult o = .error
        ("hg commit returned an error: ".data ++ o.stdout ++ " ".data ++ o.stderr)) := by
  obtain ⟨succ, sout, serr⟩ := o
  cases succ with
  | true => simp [gitCommitResult, hgCommitResult]
  | false =>
    by_cases hgit : containsSub gitSentinel (trim sout) = true <;>
      by_cases hhg : trim sout = hgSentinel <;>
        simp [gitCommitResult, hgCommitResult, hgit, hhg]

/-- Witness for claim C4: a failed git commit with no sentinel in its output
errors with both captured streams, and a failed hg commit printing exactly
the sentinel succeeds. -/
theorem commit_success_characterization_witness :
    gitCommitResult ⟨false, "boom".data, "err".data⟩ =
      .error ("git commit returned an error: ".data ++ "boom".data ++ " ".data ++
        "err".data) ∧
    hgCommitResult ⟨false, "nothing changed\n".data, []⟩ = .ok () :=
  ⟨(commit_success_characterization ⟨false, "boom".data, "err".data⟩).2.2.1 rfl (by decide),
   ((commit_success_characterization ⟨false, "nothing changed\n".data, []⟩).2.1).mpr
     (Or.inr (by decide))⟩

/-- Claim C8 counterexample: when the processor-count query runs but its
output is not a number, the build aborts with an error and never invokes
make, instead of proceeding with the default parallelism of 8. -/
theorem build_misparse_cex :
    run_build ⟨some "abc".data, true⟩ =
      ([], .error "invalid digit found in string".data) := by rfl

/-- Claim C8 (amended): the build falls back to the fixed default
parallelism of 8 only when the processor-count query cannot be started;
when the query runs, its whitespace-stripped output must parse as a number
(that count is then used), and a parse failure aborts the build with an
error before make is invoked. -/
theorem build_nproc_default (env : BuildEnv) :
    (env.nprocOut = none →
      run_build env = ([Event.ranMake 8],
        if env.makeOk then .ok () else .error "Error when running make".data)) ∧
    (∀ out n, env.nprocOut = some out →
      parseU32 (out.filter (fun c => !c.isWhitespace)) = some n →
      run_build env = ([Event.ranMake n],
        if env.makeOk then .ok () else .error "Error when running make".data)) ∧
    (∀ out, env.nprocOut = some out →
      parseU32 (out.filter (fun c => !c.isWhitespace)) = none →
      run_build env = ([], .error "invalid digit found in string".data)) := by
  refine ⟨?_, ?_, ?_⟩
  · intro h
    simp [run_build, h]
  · intro out n h hp
    simp [run_build, h, hp]
  · intro out h hp
    simp [run_build, h, hp]

/-- Witness for claim C8: a failing processor-count query falls back to 8
parallel jobs and the build proceeds. -/
theorem build_nproc_default_witness :
    run_build ⟨none, true⟩ = ([Event.ranMake 8], .ok ()) := by
  have h := (build_nproc_default ⟨none, true⟩).1 rfl
  simpa using h

/-- Claim C9: the companion rule fires for every line beginning with the
bare key `cranelift-wasm` — including longer crate names such as
`cranelift-wasm-environ` and lines with no equals sign — while the primary
rule fires exactly for lines beginning with the full key
`cranelift-codegen =` including the equals sign; lines starting with
neither key pass through unchanged. -/
theorem nested_rewrite_trigger_rules (v : VersionSpec) :
    (∀ line, wasmKey.isPrefixOf line = true →
      mapCraneliftLine v line = wasmLine v) ∧
    (∀ line, codegenKey.isPrefixOf line = true →
      mapCraneliftLine v line = codegenLine v) ∧
    (∀ line, codegenKey.isPrefixOf line = false → wasmKey.isPrefixOf line = false →
      mapCraneliftLine v line = line) ∧
    mapCraneliftLine v "cranelift-wasm-environ = \"0.60.0\"".data = wasmLine v ∧
    mapCraneliftLine v "cranelift-wasm".data = wasmLine v ∧
    mapCraneliftLine v "cranelift-codegen".data = "cranelift-codegen".data := by
  have c1 : ∀ line, wasmKey.isPrefixOf line = true →
      mapCraneliftLine v line = wasmLine v := by
    intro line h
    have h0 : codegenKey.isPrefixOf line = false := by
      obtain ⟨t, ht⟩ := List.isPrefixOf_iff_prefix.mp h
      rw [← ht]
      exact codegenKey_not_pre_of_wasm t
    simp [mapCraneliftLine, h0, h]
  refine ⟨c1, ?_, ?_, c1 _ (by decide), c1 _ (by decide), rfl⟩
  · intro line h
    simp [mapCraneliftLine, h]
  · intro line h1 h2
    simp [mapCraneliftLine, h1, h2]

/-- Witness for claim C9: a longer companion crate declaration is rewritten
by the companion rule. -/
theorem nested_rewrite_trigger_rules_witness :
    mapCraneliftLine (.Fixed "0.61.0".data) "cranelift-wasm-environ".data =
      wasmLine (.Fixed "0.61.0".data) :=
  (nested_rewrite_trigger_rules (.Fixed "0.61.0".data)).1 _ (by decide)

/-- Claim C5: when exactly one line of the top-level manifest matches the
override-section header and at least two lines follow it, the rewrite
replaces exactly the line two lines after that header wholesale with a rev
field holding the new commit identifier — no matter what similar text other
lines contain — and every other line of the output is byte-identical to the
corresponding input line. -/
theorem replace_commit_sha_unique_target (sha content : List Char)
    (a : List (List Char)) (h b0 b1 : List Char) (rest : List (List Char))
    (hsplit : splitNL content = a ++ h :: b0 :: b1 :: rest)
    (hh : patchHeaderKey.isPrefixOf h = true)
    (ha : a.all (fun l => !(patchHeaderKey.isPrefixOf l)) = true)
    (h0 : patchHeaderKey.isPrefixOf b0 = false)
    (h1 : patchHeaderKey.isPrefixOf b1 = false)
    (hrest : rest.all (fun l => !(patchHeaderKey.isPrefixOf l)) = true) :
    replace_commit_sha sha content = joinNL (a ++ h :: b0 :: revLine sha :: rest) := by
  unfold replace_commit_sha
  rw [hsplit]
  rw [shaMapLines_skip sha a _
    (fun l hl => by simpa using List.all_eq_true.mp ha l hl)]
  rw [shaMapLines_fire sha h b0 b1 rest hh h0 h1
    (fun l hl => by simpa using List.all_eq_true.mp hrest l hl)]

/-- Witness for claim C5: in a manifest with one header, two following
lines, and a later decoy rev line, only the line two after the header is
replaced. -/
theorem replace_commit_sha_unique_target_witness :
    replace_commit_sha "1234567".data
      "pre\n[patch.crates-io.cranelift-codegen]\ngit = \"g\"\nrev = \"abcdef0\"\nrev = \"zz\"".data
    = joinNL ["pre".data, "[patch.crates-io.cranelift-codegen]".data,
        "git = \"g\"".data, revLine "1234567".data, "rev = \"zz\"".data] :=
  replace_commit_sha_unique_target "1234567".data _
    ["pre".data] "[patch.crates-io.cranelift-codegen]".data
    "git = \"g\"".data "rev = \"abcdef0\"".data ["rev = \"zz\"".data]
    (by decide) (by decide) (by decide) (by decide) (by decide) (by decide)

/-- Claim C10: on content none of whose lines starts with either nested
dependency key, the nested rewrite is the identity byte for byte, and on
content none of whose lines matches the override-section header, the
top-level rewrite is the identity byte for byte — trailing newlines
included, since splitting and rejoining restores the content exactly. -/
theorem rewrites_identity_without_triggers (v : VersionSpec) (sha content : List Char) :
    ((splitNL content).all
        (fun l => !(codegenKey.isPrefixOf l) && !(wasmKey.isPrefixOf l)) = true →
      replace_cranelift_version v content = content) ∧
    ((splitNL content).all (fun l => !(patchHeaderKey.isPrefixOf l)) = true →
      replace_commit_sha sha content = content) := by
  constructor
  · intro h
    unfold replace_cranelift_version
    have h' := List.all_eq_true.mp h
    have hmap : (splitNL content).map (mapCraneliftLine v) = splitNL content := by
      calc (splitNL content).map (mapCraneliftLine v)
          = (splitNL content).map id := by
            apply List.map_congr_left
            intro l hl
            have hb := h' l hl
            simp only [Bool.and_eq_true, Bool.not_eq_true'] at hb
            simp [mapCraneliftLine, hb.1, hb.2]
        _ = splitNL content := List.map_id _
    rw [hmap, joinNL_splitNL]
  · intro h
    unfold replace_commit_sha
    rw [shaMapLines_inert sha _
      (fun l hl => by simpa using List.all_eq_true.mp h l hl) none (Or.inl rfl)]
    exact joinNL_splitNL content

/-- Witness for claim C10: content with a decoy rev line but no header line
passes through the top-level rewrite untouched. -/
theorem rewrites_identity_without_triggers_witness :
    replace_commit_sha "123".data "alpha\nrev = \"old\"\nbeta\n".data =
      "alpha\nrev = \"old\"\nbeta\n".data :=
  (rewrites_identity_without_triggers (.Fixed "9".data) "123".data
    "alpha\nrev = \"old\"\nbeta\n".data).2 (by decide)

/-- Claim C6 counterexample: with a version string containing a newline,
the replacement line re-splits on the second pass and both halves trigger
the companion rule again, so applying the nested rewrite twice differs from
applying it once — the claimed idempotence over every VersionSpec fails. -/
theorem nested_rewrite_not_idempotent_cex :
    replace_cranelift_version (.Fixed "0\ncranelift-wasm".data)
        (replace_cranelift_version (.Fixed "0\ncranelift-wasm".data)
          "cranelift-wasm".data) ≠
      replace_cranelift_version (.Fixed "0\ncranelift-wasm".data)
        "cranelift-wasm".data := by
  decide

/-- Claim C6 (amended): the nested rewrite is a pure per-line map with no
cross-line state, and for every file content and every VersionSpec whose
payload contains no newline, applying the rewrite twice equals applying it
once — the first output is a fixed point of the map. -/
theorem nested_rewrite_idempotent_no_newline (v : VersionSpec) (content : List Char)
    (hv : '\n' ∉ v.payload) :
    replace_cranelift_version v (replace_cranelift_version v content) =
      replace_cranelift_version v content := by
  unfold replace_cranelift_version
  have hnn : ∀ l ∈ (splitNL content).map (mapCraneliftLine v), '\n' ∉ l := by
    intro l hl
    obtain ⟨m, hm, rfl⟩ := List.mem_map.mp hl
    exact mapCraneliftLine_no_nl v m hv (mem_splitNL_no_nl content m hm)
  have hne : (splitNL content).map (mapCraneliftLine v) ≠ [] := by
    obtain ⟨l, ls, h⟩ := splitNL_exists_cons content
    simp [h]
  rw [splitNL_joinNL _ hne hnn, List.map_map]
  congr 1
  apply List.map_congr_left
  intro l _
  show mapCraneliftLine v (mapCraneliftLine v l) = mapCraneliftLine v l
  exact mapCraneliftLine_idem v l

/-- Claim C1: in every bump or local invocation, a manifest write occurs
only when the immediately preceding dirty-tree check returned false, and a
dirty-tree check returning true makes the pipeline stop with an error and
an empty event trace — no manifest file is opened for writing, so both
manifests stay unchanged. -/
theorem clean_gate_bump_local (envB : BumpEnv) (envL : LocalEnv) :
    (envB.hasDiff = .ok true →
      (run_bump envB).1 = [] ∧ errored (run_bump envB).2 = true) ∧
    (envL.hasDiff = .ok true →
      (run_local envL).1 = [] ∧ errored (run_local envL).2 = true) ∧
    ((run_bump envB).1.any isWriteEvent = true → envB.hasDiff = .ok false) ∧
    ((run_local envL).1.any isWriteEvent = true → envL.hasDiff = .ok false) := by
  refine ⟨?_, ?_, ?_, ?_⟩
  · intro h
    obtain ⟨e, he⟩ := check_gecko_repo_err_of_not_clean envB.cwd envB.fs
      envB.hasDiff envB.repoPath (by rw [h]; simp)
    constructor <;> simp [run_bump, he, errored]
  · intro h
    obtain ⟨e, he⟩ := check_gecko_repo_err_of_not_clean envL.cwd envL.fs
      envL.hasDiff envL.repoPath (by rw [h]; simp)
    cases hw : envL.wasmtimeArg with
    | none => constructor <;> simp [run_local, hw, errored]
    | some w => constructor <;> simp [run_local, hw, he, errored]
  · intro hany
    by_cases hc : envB.hasDiff = .ok false
    · exact hc
    · obtain ⟨e, he⟩ := check_gecko_repo_err_of_not_clean envB.cwd envB.fs
        envB.hasDiff envB.repoPath hc
      simp [run_bump, he] at hany
  · intro hany
    by_cases hc : envL.hasDiff = .ok false
    · exact hc
    · obtain ⟨e, he⟩ := check_gecko_repo_err_of_not_clean envL.cwd envL.fs
        envL.hasDiff envL.repoPath hc
      cases hw : envL.wasmtimeArg with
      | none => simp [run_local, hw] at hany
      | some w => simp [run_local, hw, he] at hany

/-- Witness for claim C1: a bump on a dirty repository performs no action
and errors. -/
theorem clean_gate_bump_local_witness :
    (run_bump ⟨"/r".data, .ok (), ⟨fun _ => true⟩, .ok true, none,
        .ok "0.61.0".data, .ok "abc".data, .ok (), .ok (), true⟩).1 = [] ∧
    errored (run_bump ⟨"/r".data, .ok (), ⟨fun _ => true⟩, .ok true, none,
        .ok "0.61.0".data, .ok "abc".data, .ok (), .ok (), true⟩).2 = true :=
  (clean_gate_bump_local
    ⟨"/r".data, .ok (), ⟨fun _ => true⟩, .ok true, none,
      .ok "0.61.0".data, .ok "abc".data, .ok (), .ok (), true⟩
    ⟨"/r".data, some "/w".data, "/w/".data, .ok (), ⟨fun _ => true⟩,
      .ok true, .ok (), .ok (), true⟩).1 rfl

/-- Claim C2 counterexample: in a bump run whose commit-id fetch fails, the
nested manifest has already been rewritten — its write event is in the
trace — so the failure does not leave both manifest files unmodified. -/
theorem bump_write_before_sha_fetch_cex :
    (run_bump ⟨"/r".data, .ok (), ⟨fun _ => true⟩, .ok false, none,
        .ok "0.61.0".data, .error "network down".data, .ok (), .ok (), true⟩).2 =
      .error "network down".data ∧
    Event.wroteNested (VersionSpec.Fixed "0.61.0".data) ∈
      (run_bump ⟨"/r".data, .ok (), ⟨fun _ => true⟩, .ok false, none,
        .ok "0.61.0".data, .error "network down".data, .ok (), .ok (), true⟩).1 := by
  constructor
  · rfl
  · decide

/-- Claim C2 (amended): in the bump workflow the version fetch precedes
both manifest writes and the commit-id fetch precedes the top-level write,
but the nested-manifest write precedes the commit-id fetch: when the
commit-id fetch fails, the run aborts with the top-level manifest untouched
while the nested manifest has already been rewritten with the fetched
version. -/
theorem bump_fetch_write_order (env : BumpEnv) :
    (∀ b la v e, check_gecko_repo env.cwd env.fs env.hasDiff env.repoPath = .ok b →
      parseBumpArg env.extraArg = .ok la →
      env.versionFetch = .ok v →
      env.shaFetch = .error e →
      run_bump env = ([Event.wroteNested (VersionSpec.Fixed v)], .error e)) ∧
    (∀ sha, Event.wroteTop sha ∈ (run_bump env).1 → env.shaFetch = .ok sha) ∧
    (∀ v, Event.wroteNested (VersionSpec.Fixed v) ∈ (run_bump env).1 →
      env.versionFetch = .ok v) := by
  refine ⟨?_, ?_, ?_⟩
  · intro b la v e hcheck harg hv hs
    simp [run_bump, hcheck, harg, hv, hs]
  · intro sha hmem
    cases hcheck : check_gecko_repo env.cwd env.fs env.hasDiff env.repoPath with
    | error e => simp [run_bump, hcheck] at hmem
    | ok b =>
      cases harg : parseBumpArg env.extraArg with
      | error e => simp [run_bump, hcheck, harg] at hmem
      | ok la =>
        cases hv : env.versionFetch with
        | error e => simp [run_bump, hcheck, harg, hv] at hmem
        | ok v =>
          cases hs : env.shaFetch with
          | error e => simp [run_bump, hcheck, harg, hv, hs] at hmem
          | ok s =>
            cases hcA : env.commitA with
            | error e =>
              simp [run_bump, hcheck, harg, hv, hs, hcA] at hmem
              subst hmem
              rfl
            | ok u =>
              cases hven : env.vendorOk with
              | false =>
                simp [run_bump, hcheck, harg, hv, hs, hcA, hven] at hmem
                subst hmem
                rfl
              | true =>
                cases hcB : env.commitB with
                | error e =>
                  simp [run_bump, hcheck, harg, hv, hs, hcA, hven, hcB] at hmem
                  subst hmem
                  rfl
                | ok u2 =>
                  simp [run_bump, hcheck, harg, hv, hs, hcA, hven, hcB] at hmem
                  subst hmem
                  rfl
  · intro v hmem
    cases hcheck : check_gecko_repo env.cwd env.fs env.hasDiff env.repoPath with
    | error e => simp [run_bump, hcheck] at hmem
    | ok b =>
      cases harg : parseBumpArg env.extraArg with
      | error e => simp [run_bump, hcheck, harg] at hmem
      | ok la =>
        cases hv : env.versionFetch with
        | error e => simp [run_bump, hcheck, harg, hv] at hmem
        | ok v0 =>
          cases hs : env.shaFetch with
          | error e =>
            simp [run_bump, hcheck, harg, hv, hs] at hmem
            subst hmem
            rfl
          | ok s =>
            cases hcA : env.commitA with
            | error e =>
              simp [run_bump, hcheck, harg, hv, hs, hcA] at hmem
              subst hmem
              rfl
            | ok u =>
              cases hven : env.vendorOk with
              | false =>
                simp [run_bump, hcheck, harg, hv, hs, hcA, hven] at hmem
                subst hmem
                rfl
              | true =>
                cases hcB : env.commitB with
                | error e =>
                  simp [run_bump, hcheck, harg, hv, hs, hcA, hven, hcB] at hmem
                  subst hmem
                  rfl
                | ok u2 =>
                  simp [run_bump, hcheck, harg, hv, hs, hcA, hven, hcB] at hmem
                  subst hmem
                  rfl

/-- Witness for claim C2: a clean bump whose commit-id fetch fails stops
with exactly the nested-manifest write in its trace. -/
theorem bump_fetch_write_order_witness :
    run_bump ⟨"/repo".data, .ok (), ⟨fun _ => true⟩, .ok false, none,
        .ok "0.61.0".data, .error "net".data, .ok (), .ok (), true⟩ =
      ([Event.wroteNested (VersionSpec.Fixed "0.61.0".data)], .error "net".data) :=
  (bump_fetch_write_order
    ⟨"/repo".data, .ok (), ⟨fun _ => true⟩, .ok false, none,
      .ok "0.61.0".data, .error "net".data, .ok (), .ok (), true⟩).1
    Backend.hg false "0.61.0".data "net".data rfl rfl rfl rfl

/-- Claim C3 counterexample: a fully successful local run completes with no
top-level-manifest write in its trace, so local does not patch both
manifest targets. -/
theorem local_no_toplevel_patch_cex :
    (run_local ⟨"/r".data, some "/w".data, "/w/".data, .ok (), ⟨fun _ => true⟩,
        .ok false, .ok (), .ok (), true⟩).2 = .ok () ∧
    (run_local ⟨"/r".data, some "/w".data, "/w/".data, .ok (), ⟨fun _ => true⟩,
        .ok false, .ok (), .ok (), true⟩).1.any isTopWrite = false := by
  constructor
  · rfl
  · decide

/-- Claim C3 (amended): the local workflow shares the bump pipeline shape —
clean check, manifest patching, commit, vendor, commit — but patches only
the nested dependency manifest, with a Path spec into the local checkout
and the large-imports flag always off; it never writes the top-level pin
manifest. -/
theorem local_pipeline_shape (env : LocalEnv) :
    (∀ w b, env.wasmtimeArg = some w →
      check_gecko_repo env.cwd env.fs env.hasDiff env.repoPath = .ok b →
      env.commitA = .ok () → env.vendorOk = true → env.commitB = .ok () →
      run_local env =
        ([Event.wroteNested (VersionSpec.Path (env.wasmtimeCanon ++ "cranelift/".data)),
          Event.committed "No bug - do not check in - use local Cranelift".data,
          Event.ranVendor false,
          Event.committed "No bug - do not check in - result of mach vendor rust".data],
         .ok ())) ∧
    ((run_local env).1.any isTopWrite = false) := by
  constructor
  · intro w b hw hcheck hA hven hB
    simp [run_local, hw, hcheck, hA, hven, hB]
  · cases hw : env.wasmtimeArg with
    | none => simp [run_local, hw]
    | some w =>
      cases hcheck : check_gecko_repo env.cwd env.fs env.hasDiff env.repoPath with
      | error e => simp [run_local, hw, hcheck]
      | ok b =>
        cases hA : env.commitA with
        | error e => simp [run_local, hw, hcheck, hA, isTopWrite, isWriteEvent]
        | ok u =>
          cases hven : env.vendorOk with
          | false => simp [run_local, hw, hcheck, hA, hven, isTopWrite]
          | true =>
            cases hB : env.commitB with
            | error e => simp [run_local, hw, hcheck, hA, hven, hB, isTopWrite]
            | ok u2 => simp [run_local, hw, hcheck, hA, hven, hB, isTopWrite]

/-- Witness for claim C3: a fully successful local run produces exactly the
nested write, commit, vendor, commit trace. -/
theorem local_pipeline_shape_witness :
    run_local ⟨"/r".data, some "/w".data, "/w/".data, .ok (), ⟨fun _ => true⟩,
        .ok false, .ok (), .ok (), true⟩ =
      ([Event.wroteNested (VersionSpec.Path "/w/cranelift/".data),
        Event.committed "No bug - do not check in - use local Cranelift".data,
        Event.ranVendor false,
        Event.committed "No bug - do not check in - result of mach vendor rust".data],
       .ok ()) :=
  (local_pipeline_shape ⟨"/r".data, some "/w".data, "/w/".data, .ok (),
      ⟨fun _ => true⟩, .ok false, .ok (), .ok (), true⟩).1
    "/w".data Backend.hg rfl rfl rfl rfl rfl

/-- Witness for claim C6: a realistic manifest is unchanged by a second
application of the rewrite with a newline-free version. -/
theorem nested_rewrite_idempotent_witness :
    replace_cranelift_version (.Fixed "0.61.0".data)
        (replace_cranelift_version (.Fixed "0.61.0".data)
          "cranelift-codegen = \"0.60.0\"\ncranelift-wasm = \"0.60.0\"\nother = 1".data) =
      replace_cranelift_version (.Fixed "0.61.0".data)
        "cranelift-codegen = \"0.60.0\"\ncranelift-wasm = \"0.60.0\"\nother = 1".data :=
  nested_rewrite_idempotent_no_newline (.Fixed "0.61.0".data) _ (by decide)
